import Mathlib

/-!
Shallow embedding of `src/jrp_solver.py` (the JRP policy solver).

Modelling decisions, stated once:

* Python floats are modelled as real numbers (`ℝ`); binary representation
  error and overflow of finite doubles are abstracted away.
* The ranking sentinel `float('inf')` produced by `Item.a_over_Dv` is
  modelled with `WithTop ℝ` (`⊤` is `inf`); this value is only ever used
  as a sort key and as the left factor of `ratio` in the multiplier loop,
  and both uses are translated explicitly below.
* Python raises exceptions where IEEE arithmetic would not: `x / 0.0`
  raises `ZeroDivisionError`, `math.sqrt` of a negative raises
  `ValueError`, `round(float('inf'))` raises `OverflowError`,
  `round(float('nan'))` raises `ValueError`, and indexing an empty list
  raises `IndexError`.  The embedding returns these through `Except`.
* Python's builtin `round` rounds halves to the nearest even integer
  (banker's rounding); `pyRound` below implements exactly that on `ℝ`,
  and `round(x, n)` is modelled as `pyRound (x * 10^n) / 10^n`.
* `sorted(instance.items, key=lambda x: x.a_over_Dv)` is a stable
  ascending sort by the key; any two stable ascending sorts agree, so it
  is translated as `List.insertionSort` with the key order (Mathlib's
  `insertionSort` places an element before the first later element it is
  `≤` to, which keeps ties in original order exactly as Timsort does).
-/

/-- Python exceptions that the statements of `find_optimal_policy` can raise. -/
inductive PyErr where
  | indexError
  | zeroDivisionError
  | valueError
  | overflowError
deriving DecidableEq, Repr

/-- Mirrors `class Item` of `src/jrp_solver.py`: one stock-keeping unit. -/
structure Item where
  id : String
  a : ℝ
  D : ℝ
  v : ℝ

/-- Mirrors the Python property `Item.a_over_Dv`:
`self.a / (self.D * self.v) if self.D * self.v > 0 else float('inf')`. -/
noncomputable def Item.a_over_Dv (x : Item) : WithTop ℝ :=
  if 0 < x.D * x.v then ((x.a / (x.D * x.v) : ℝ) : WithTop ℝ) else ⊤

/-- Mirrors `class JRPInstance` of `src/jrp_solver.py`. -/
structure JRPInstance where
  instance_name : String
  A : ℝ
  r : ℝ
  items : List Item

/-- Mirrors one result dict appended to `item_results`: keys
`ID`, `Multiplier (m)`, `Individual Cycle (Ti)`, `Setup Cost ($)`,
`Holding Cost ($)`, `Total Item Cost ($)`. -/
structure PolicyRow where
  ID : String
  m : ℤ
  Ti : ℝ
  setup : ℝ
  holding : ℝ
  total : ℝ

/-- Python's builtin `round` on a finite value: nearest integer, halves to
the nearest even integer. -/
noncomputable def pyRound (x : ℝ) : ℤ :=
  if x - ⌊x⌋ = 1 / 2 then (if Even ⌊x⌋ then ⌊x⌋ else ⌊x⌋ + 1) else round x

/-- Python's `round(x, 2)` on a finite value, in exact decimal arithmetic. -/
noncomputable def round2 (x : ℝ) : ℝ :=
  (pyRound (x * 100) : ℝ) / 100

/-- Python's `round(x, 5)` on a finite value, in exact decimal arithmetic. -/
noncomputable def round5 (x : ℝ) : ℝ :=
  (pyRound (x * 100000) : ℝ) / 100000

/-- The sort key order used by `sorted(instance.items, key=lambda x: x.a_over_Dv)`. -/
def itemLe (x y : Item) : Prop :=
  x.a_over_Dv ≤ y.a_over_Dv

noncomputable instance : DecidableRel itemLe :=
  fun x y => inferInstanceAs (Decidable (x.a_over_Dv ≤ y.a_over_Dv))

instance : IsTotal Item itemLe :=
  ⟨fun x y => le_total x.a_over_Dv y.a_over_Dv⟩

instance : IsTrans Item itemLe :=
  ⟨fun _ _ _ hxy hyz => le_trans hxy hyz⟩

/-- Mirrors `sorted_items = sorted(instance.items, key=lambda x: x.a_over_Dv)`:
the stable ascending sort of the items by `a_over_Dv`. -/
noncomputable def rankItems (inst : JRPInstance) : List Item :=
  inst.items.insertionSort itemLe

/-- Runs a Python `for` loop body, which may raise, over a list, collecting the
results; the loop stops at the first raised exception. -/
def exceptMap (f : α → Except PyErr β) : List α → Except PyErr (List β)
  | [] => .ok []
  | x :: xs =>
    match f x with
    | .error e => .error e
    | .ok y =>
      match exceptMap f xs with
      | .error e => .error e
      | .ok ys => .ok (y :: ys)

/-- Mirrors one iteration of the multiplier loop of `find_optimal_policy`:
`ratio = sorted_items[i].a_over_Dv * (D1_v1 / (instance.A + sorted_items[0].a))`
followed by `m_values[i] = max(1, round(math.sqrt(ratio)))`, with Python float
semantics: the inner division raises `ZeroDivisionError` on a zero denominator;
if `a_over_Dv` is the `inf` sentinel the product is `inf`, `nan` or `-inf`
(for a positive, zero or negative second factor), so `round(math.sqrt(...))`
raises `OverflowError` (from `round(inf)`) or `ValueError` (from `round(nan)`
or `sqrt(-inf)`); a finite negative radicand raises `ValueError` in `sqrt`. -/
noncomputable def multStep (A a0 D1v1 : ℝ) (it : Item) : Except PyErr ℤ :=
  if A + a0 = 0 then .error .zeroDivisionError
  else if 0 < it.D * it.v then
    if it.a / (it.D * it.v) * (D1v1 / (A + a0)) < 0 then .error .valueError
    else .ok (max 1 (pyRound (Real.sqrt (it.a / (it.D * it.v) * (D1v1 / (A + a0))))))
  else
    if 0 < D1v1 / (A + a0) then .error .overflowError else .error .valueError

/-- The dict built by one iteration of the result loop of
`find_optimal_policy`, given that `ti = m_values[i] * T_star` is nonzero:
`round(ti, 5)`, `s_cost = item.a / ti`,
`h_cost = (item.D * ti * item.v * instance.r) / 2`, each cost rounded to
2 digits, the total rounded from the unrounded sum. -/
noncomputable def rowFun (r T : ℝ) (p : Item × ℤ) : PolicyRow :=
  { ID := p.1.id
    m := p.2
    Ti := round5 ((p.2 : ℝ) * T)
    setup := round2 (p.1.a / ((p.2 : ℝ) * T))
    holding := round2 (p.1.D * ((p.2 : ℝ) * T) * p.1.v * r / 2)
    total := round2 (p.1.a / ((p.2 : ℝ) * T) + p.1.D * ((p.2 : ℝ) * T) * p.1.v * r / 2) }

/-- Mirrors one iteration of the result loop of `find_optimal_policy`:
`s_cost = item.a / ti` raises `ZeroDivisionError` when `ti == 0`, otherwise
the appended dict is `rowFun`. -/
noncomputable def rowOf (r T : ℝ) (p : Item × ℤ) : Except PyErr PolicyRow :=
  if (p.2 : ℝ) * T = 0 then .error .zeroDivisionError
  else .ok (rowFun r T p)

/-- Body of `find_optimal_policy` after the sort, translated statement by
statement.  `sorted_items[0]` on an empty list raises `IndexError`;
`num / den` raises `ZeroDivisionError` when `den == 0`; `math.sqrt(num / den)`
raises `ValueError` on a negative argument; `instance.A / T_star` raises
`ZeroDivisionError` when `T_star == 0` (unreachable in practice because the
first row's `s_cost` divides by `ti = 1 * T_star` before it). -/
noncomputable def find_core (A r : ℝ) :
    List Item → Except PyErr (ℝ × ℝ × List PolicyRow)
  | [] => .error .indexError
  | r0 :: rest =>
    match exceptMap (multStep A r0.a (r0.D * r0.v)) rest with
    | .error e => .error e
    | .ok ms =>
      let pairs := (r0 :: rest).zip ((1 : ℤ) :: ms)
      let num := 2 * (A + (pairs.map fun p => p.1.a / (p.2 : ℝ)).sum)
      let den := r * (pairs.map fun p => (p.2 : ℝ) * p.1.D * p.1.v).sum
      if den = 0 then .error .zeroDivisionError
      else if num / den < 0 then .error .valueError
      else
        let T := Real.sqrt (num / den)
        match exceptMap (rowOf r T) pairs with
        | .error e => .error e
        | .ok rows =>
          if T = 0 then .error .zeroDivisionError
          else .ok (T, A / T + (rows.map PolicyRow.total).sum, rows)

/-- Mirrors `find_optimal_policy(instance)` of `src/jrp_solver.py`. -/
noncomputable def find_optimal_policy (inst : JRPInstance) :
    Except PyErr (ℝ × ℝ × List PolicyRow) :=
  find_core inst.A inst.r (rankItems inst)

/-- State-passing form of `find_optimal_policy`, with the instance as the
store.  Every statement of the Python body only reads `instance.A`,
`instance.r` and `instance.items` (`sorted` allocates a fresh list of the
same item references) and otherwise works on the locals `sorted_items`,
`m_values`, `item_results`; no statement assigns to an attribute of
`instance` or of any `Item`, so each step returns the store unchanged. -/
noncomputable def find_optimal_policyS (s : JRPInstance) :
    Except PyErr (ℝ × ℝ × List PolicyRow) × JRPInstance :=
  let readItems := (s.items, s)
  let sortStep := (readItems.1.insertionSort itemLe, readItems.2)
  let restStep := (find_core sortStep.2.A sortStep.2.r sortStep.1, sortStep.2)
  restStep

/-! ### Inversion lemmas for the stages of the solver -/

theorem exceptMap_ok_iff {α β : Type} {f : α → Except PyErr β} :
    ∀ {l : List α} {ys : List β},
      exceptMap f l = .ok ys ↔ List.Forall₂ (fun a b => f a = .ok b) l ys := by
  intro l
  induction l with
  | nil =>
    intro ys
    constructor
    · intro h
      injection h with h
      subst h
      exact List.Forall₂.nil
    · intro h
      cases h
      rfl
  | cons x xs ih =>
    intro ys
    constructor
    · intro h
      unfold exceptMap at h
      cases hfx : f x with
      | error e => rw [hfx] at h; cases h
      | ok y =>
        rw [hfx] at h
        cases hrest : exceptMap f xs with
        | error e => rw [hrest] at h; cases h
        | ok ys2 =>
          rw [hrest] at h
          injection h with h
          subst h
          exact List.Forall₂.cons hfx (ih.mp hrest)
    · intro h
      cases h with
      | cons hf hrest =>
        unfold exceptMap
        rw [hf, ih.mpr hrest]

theorem exceptMap_error_of_mem {α β : Type} {f : α → Except PyErr β} {x : α} {e : PyErr}
    {l : List α} (hx : x ∈ l) (hfx : f x = .error e) :
    ∃ e2, exceptMap f l = .error e2 := by
  induction l with
  | nil => cases hx
  | cons y ys ih =>
    unfold exceptMap
    cases hfy : f y with
    | error e3 => exact ⟨e3, rfl⟩
    | ok z =>
      rcases List.mem_cons.mp hx with rfl | hx2
      · rw [hfy] at hfx; cases hfx
      · obtain ⟨e2, h2⟩ := ih hx2
        rw [h2]
        exact ⟨e2, rfl⟩

theorem forall2_ok_eq_map {α β : Type} {f : α → Except PyErr β} {g : α → β}
    {l : List α} {ys : List β}
    (h : List.Forall₂ (fun a b => f a = .ok b) l ys)
    (hg : ∀ a ∈ l, f a = .ok (g a)) : ys = l.map g := by
  induction h with
  | nil => rfl
  | cons hab htail ih =>
    rename_i a b l2 ys2
    have h1 := hg a (List.mem_cons_self a l2)
    rw [hab] at h1
    injection h1 with h1
    rw [List.map_cons, ← ih fun a2 ha2 => hg a2 (List.mem_cons_of_mem _ ha2), h1]

/-- The value computed in the multiplier loop when nothing is raised. -/
noncomputable def mFun (A a0 D1v1 : ℝ) (it : Item) : ℤ :=
  max 1 (pyRound (Real.sqrt (it.a / (it.D * it.v) * (D1v1 / (A + a0)))))

theorem multStep_ok_elim {A a0 D1v1 : ℝ} {it : Item} {m : ℤ}
    (h : multStep A a0 D1v1 it = .ok m) :
    A + a0 ≠ 0 ∧ 0 < it.D * it.v ∧
      ¬ it.a / (it.D * it.v) * (D1v1 / (A + a0)) < 0 ∧
      m = mFun A a0 D1v1 it := by
  unfold multStep at h
  by_cases h1 : A + a0 = 0
  · rw [if_pos h1] at h; cases h
  · rw [if_neg h1] at h
    by_cases h2 : 0 < it.D * it.v
    · rw [if_pos h2] at h
      by_cases h3 : it.a / (it.D * it.v) * (D1v1 / (A + a0)) < 0
      · rw [if_pos h3] at h; cases h
      · rw [if_neg h3] at h
        injection h with h
        exact ⟨h1, h2, h3, h.symm⟩
    · rw [if_neg h2] at h
      by_cases h4 : 0 < D1v1 / (A + a0)
      · rw [if_pos h4] at h; cases h
      · rw [if_neg h4] at h; cases h

theorem multStep_error_of_not_pos {A a0 D1v1 : ℝ} {it : Item}
    (hD : ¬ 0 < it.D * it.v) : ∃ e, multStep A a0 D1v1 it = .error e := by
  unfold multStep
  by_cases h1 : A + a0 = 0
  · rw [if_pos h1]; exact ⟨_, rfl⟩
  · rw [if_neg h1, if_neg hD]
    by_cases h4 : 0 < D1v1 / (A + a0)
    · rw [if_pos h4]; exact ⟨_, rfl⟩
    · rw [if_neg h4]; exact ⟨_, rfl⟩

theorem rowOf_ok_elim {r T : ℝ} {p : Item × ℤ} {row : PolicyRow}
    (h : rowOf r T p = .ok row) :
    (p.2 : ℝ) * T ≠ 0 ∧ row = rowFun r T p := by
  unfold rowOf at h
  by_cases h1 : (p.2 : ℝ) * T = 0
  · rw [if_pos h1] at h; cases h
  · rw [if_neg h1] at h
    injection h with h
    exact ⟨h1, h.symm⟩

theorem exceptMap_rowOf_ok {r T : ℝ} :
    ∀ {pairs : List (Item × ℤ)} {rows : List PolicyRow},
      exceptMap (rowOf r T) pairs = .ok rows →
      rows = pairs.map (rowFun r T) ∧ ∀ p ∈ pairs, (p.2 : ℝ) * T ≠ 0 := by
  intro pairs
  induction pairs with
  | nil =>
    intro rows h
    injection h with h
    subst h
    exact ⟨rfl, by simp⟩
  | cons p ps ih =>
    intro rows h
    unfold exceptMap at h
    cases hp : rowOf r T p with
    | error e => rw [hp] at h; cases h
    | ok row =>
      rw [hp] at h
      cases hrest : exceptMap (rowOf r T) ps with
      | error e => rw [hrest] at h; cases h
      | ok rs =>
        rw [hrest] at h
        injection h with h
        subst h
        obtain ⟨hne, hrow⟩ := rowOf_ok_elim hp
        obtain ⟨h3, h4⟩ := ih hrest
        refine ⟨by rw [List.map_cons, ← h3, hrow], ?_⟩
        intro q hq
        rcases List.mem_cons.mp hq with rfl | hq2
        · exact hne
        · exact h4 q hq2

theorem exceptMap_multStep_ok {A a0 D1v1 : ℝ} {rest : List Item} {ms : List ℤ}
    (h : exceptMap (multStep A a0 D1v1) rest = .ok ms) :
    ms = rest.map (mFun A a0 D1v1) := by
  have h2 := exceptMap_ok_iff.mp h
  clear h
  induction h2 with
  | nil => rfl
  | cons hab htail ih =>
    rw [(multStep_ok_elim hab).2.2.2, List.map_cons, ← ih]

/-- Master inversion for a successful run of the solver core: names every
intermediate value and every branch condition that a successful run passed. -/
theorem find_core_ok_elim {A r : ℝ} {ranked : List Item} {T C : ℝ}
    {rows : List PolicyRow} (h : find_core A r ranked = .ok (T, C, rows)) :
    ∃ r0 rest,
      ranked = r0 :: rest ∧
      ∃ ms, exceptMap (multStep A r0.a (r0.D * r0.v)) rest = .ok ms ∧
      r * ((((r0 :: rest).zip ((1 : ℤ) :: ms)).map
          fun p => (p.2 : ℝ) * p.1.D * p.1.v).sum) ≠ 0 ∧
      0 ≤ (2 * (A + (((r0 :: rest).zip ((1 : ℤ) :: ms)).map
            fun p => p.1.a / (p.2 : ℝ)).sum)) /
          (r * ((((r0 :: rest).zip ((1 : ℤ) :: ms)).map
            fun p => (p.2 : ℝ) * p.1.D * p.1.v).sum)) ∧
      T = Real.sqrt ((2 * (A + (((r0 :: rest).zip ((1 : ℤ) :: ms)).map
            fun p => p.1.a / (p.2 : ℝ)).sum)) /
          (r * ((((r0 :: rest).zip ((1 : ℤ) :: ms)).map
            fun p => (p.2 : ℝ) * p.1.D * p.1.v).sum))) ∧
      T ≠ 0 ∧
      exceptMap (rowOf r T) ((r0 :: rest).zip ((1 : ℤ) :: ms)) = .ok rows ∧
      C = A / T + (rows.map PolicyRow.total).sum := by
  unfold find_core at h
  split at h
  · cases h
  next r0 rest =>
    refine ⟨r0, rest, rfl, ?_⟩
    split at h
    next e hm => cases h
    next ms hm =>
      refine ⟨ms, hm, ?_⟩
      simp only [] at h
      split at h
      next hden => cases h
      next hden =>
        split at h
        next hq => cases h
        next hq =>
          split at h
          next e hrow => cases h
          next rows2 hrow =>
            split at h
            next hT => cases h
            next hT =>
              injection h with h
              simp only [Prod.mk.injEq] at h
              obtain ⟨hT2, hC, hrows⟩ := h
              subst hT2
              subst hrows
              exact ⟨hden, not_lt.mp hq, rfl, hT, hrow, hC.symm⟩

/-- Intro rule matching `find_core_ok_elim`: a successful run assembled from
its pieces, with the intermediate scalars as explicit hypotheses. -/
theorem find_core_build {A r num den T C : ℝ} {r0 : Item} {rest : List Item}
    {ms : List ℤ} {rows : List PolicyRow}
    (hm : exceptMap (multStep A r0.a (r0.D * r0.v)) rest = .ok ms)
    (hnum : 2 * (A + (((r0 :: rest).zip ((1 : ℤ) :: ms)).map
        fun p => p.1.a / (p.2 : ℝ)).sum) = num)
    (hden2 : r * ((((r0 :: rest).zip ((1 : ℤ) :: ms)).map
        fun p => (p.2 : ℝ) * p.1.D * p.1.v).sum) = den)
    (hden : den ≠ 0) (hq : 0 ≤ num / den) (hT : Real.sqrt (num / den) = T)
    (hrows : exceptMap (rowOf r T) ((r0 :: rest).zip ((1 : ℤ) :: ms)) = .ok rows)
    (hT0 : T ≠ 0)
    (hC : A / T + (rows.map PolicyRow.total).sum = C) :
    find_core A r (r0 :: rest) = .ok (T, C, rows) := by
  simp only [find_core, hm]
  simp only [hnum, hden2, if_neg hden, if_neg (not_lt.mpr hq), hT]
  simp only [hrows, if_neg hT0, hC]

/-! ### Facts about the ranking stage -/

theorem rankItems_sorted (inst : JRPInstance) : (rankItems inst).Sorted itemLe :=
  List.sorted_insertionSort itemLe inst.items

theorem rankItems_perm (inst : JRPInstance) : (rankItems inst).Perm inst.items :=
  List.perm_insertionSort itemLe inst.items

theorem rankItems_stable {a b : Item} {inst : JRPInstance}
    (hk : a.a_over_Dv = b.a_over_Dv) (h : List.Sublist [a, b] inst.items) :
    List.Sublist [a, b] (rankItems inst) :=
  List.pair_sublist_insertionSort (le_of_eq hk) h

theorem a_over_Dv_eq_top_iff {x : Item} : x.a_over_Dv = ⊤ ↔ ¬ 0 < x.D * x.v := by
  unfold Item.a_over_Dv
  by_cases h : 0 < x.D * x.v
  · simp [h]
  · simp [h]

/-! ### Evaluation lemmas for `pyRound` and the display roundings -/

theorem pyRound_intCast (n : ℤ) : pyRound (n : ℝ) = n := by
  have h : (n : ℝ) - ⌊(n : ℝ)⌋ ≠ 1 / 2 := by
    rw [Int.floor_intCast]
    norm_num
  unfold pyRound
  rw [if_neg h, round_intCast]

theorem round2_eq_of_mul_intCast {x : ℝ} {n : ℤ} (h : x * 100 = (n : ℝ)) :
    round2 x = x := by
  unfold round2
  rw [h, pyRound_intCast, ← h]
  ring

theorem round5_eq_of_mul_intCast {x : ℝ} {n : ℤ} (h : x * 100000 = (n : ℝ)) :
    round5 x = x := by
  unfold round5
  rw [h, pyRound_intCast, ← h]
  ring

/-! ### Concrete instances used by witnesses and counterexamples -/

noncomputable def item_x : Item := { id := "x", a := 1, D := 1, v := 1 }

noncomputable def item_y : Item := { id := "y", a := 36, D := 1, v := 1 }

noncomputable def inst0 : JRPInstance :=
  { instance_name := "W", A := 3, r := 2, items := [item_x, item_y] }

theorem key_item_x : item_x.a_over_Dv = ((1 : ℝ) : WithTop ℝ) := by
  unfold Item.a_over_Dv item_x
  rw [if_pos (by norm_num)]
  norm_num

theorem key_item_y : item_y.a_over_Dv = ((36 : ℝ) : WithTop ℝ) := by
  unfold Item.a_over_Dv item_y
  rw [if_pos (by norm_num)]
  norm_num

theorem rank_inst0 : rankItems inst0 = [item_x, item_y] := by
  unfold rankItems inst0
  simp only [List.insertionSort, List.orderedInsert]
  rw [if_pos]
  show item_x.a_over_Dv ≤ item_y.a_over_Dv
  rw [key_item_x, key_item_y]
  exact WithTop.coe_le_coe.mpr (by norm_num)

theorem sqrt_nine : Real.sqrt 9 = 3 := by
  rw [show (9 : ℝ) = 3 ^ 2 by norm_num]
  exact Real.sqrt_sq (by norm_num)

theorem sqrt_four : Real.sqrt 4 = 2 := by
  rw [show (4 : ℝ) = 2 ^ 2 by norm_num]
  exact Real.sqrt_sq (by norm_num)

theorem mult_inst0_y :
    multStep inst0.A item_x.a (item_x.D * item_x.v) item_y = .ok 3 := by
  have h3 : item_y.a / (item_y.D * item_y.v) *
      ((item_x.D * item_x.v) / (inst0.A + item_x.a)) = 9 := by
    norm_num [inst0, item_x, item_y]
  unfold multStep
  rw [if_neg (by norm_num [inst0, item_x]), if_pos (by norm_num [item_y]), h3,
    if_neg (by norm_num), sqrt_nine,
    show (3 : ℝ) = ((3 : ℤ) : ℝ) by norm_num, pyRound_intCast]
  norm_num

theorem ms_inst0 :
    exceptMap (multStep inst0.A item_x.a (item_x.D * item_x.v)) [item_y] =
      .ok [3] := by
  unfold exceptMap
  rw [mult_inst0_y]
  rfl

noncomputable def row0x : PolicyRow :=
  { ID := "x", m := 1, Ti := 2, setup := 1 / 2, holding := 2, total := 5 / 2 }

noncomputable def row0y : PolicyRow :=
  { ID := "y", m := 3, Ti := 6, setup := 6, holding := 6, total := 12 }

noncomputable def rows0 : List PolicyRow := [row0x, row0y]

theorem rowOf_inst0_x : rowOf inst0.r 2 (item_x, (1 : ℤ)) = .ok row0x := by
  unfold rowOf rowFun row0x
  rw [if_neg (by norm_num)]
  simp only [inst0, item_x]
  norm_num
  refine ⟨round5_eq_of_mul_intCast (by norm_num : (2:ℝ) * 100000 = ((200000:ℤ):ℝ)), ?_, ?_, ?_⟩
  · exact round2_eq_of_mul_intCast (by norm_num : (1/2:ℝ) * 100 = ((50:ℤ):ℝ))
  · exact round2_eq_of_mul_intCast (by norm_num : (2:ℝ) * 100 = ((200:ℤ):ℝ))
  · exact round2_eq_of_mul_intCast (by norm_num : (5/2:ℝ) * 100 = ((250:ℤ):ℝ))

theorem rowOf_inst0_y : rowOf inst0.r 2 (item_y, (3 : ℤ)) = .ok row0y := by
  unfold rowOf rowFun row0y
  rw [if_neg (by norm_num)]
  simp only [inst0, item_y]
  norm_num
  have h6 := round2_eq_of_mul_intCast (by norm_num : (6:ℝ) * 100 = ((600:ℤ):ℝ))
  have h12 := round2_eq_of_mul_intCast (by norm_num : (12:ℝ) * 100 = ((1200:ℤ):ℝ))
  have h65 := round5_eq_of_mul_intCast (by norm_num : (6:ℝ) * 100000 = ((600000:ℤ):ℝ))
  exact ⟨h65, h6, h12⟩

theorem rows_inst0 :
    exceptMap (rowOf inst0.r 2) (([item_x, item_y]).zip ((1 : ℤ) :: [3])) =
      .ok rows0 := by
  rw [show ([item_x, item_y]).zip ((1 : ℤ) :: [3]) =
      [(item_x, (1 : ℤ)), (item_y, (3 : ℤ))] from rfl]
  simp only [exceptMap]
  rw [rowOf_inst0_x, rowOf_inst0_y]
  rfl

theorem eval_inst0 : find_optimal_policy inst0 = .ok (2, 16, rows0) := by
  unfold find_optimal_policy
  rw [rank_inst0]
  refine find_core_build ms_inst0 ?_ ?_ (by norm_num) (by norm_num : (0:ℝ) ≤ 32 / 8) ?_
    rows_inst0 (by norm_num) ?_
  · rw [show ([item_x, item_y]).zip ((1 : ℤ) :: [3]) =
        [(item_x, (1 : ℤ)), (item_y, (3 : ℤ))] from rfl]
    simp only [List.map_cons, List.map_nil, List.sum_cons, List.sum_nil]
    norm_num [inst0, item_x, item_y]
  · rw [show ([item_x, item_y]).zip ((1 : ℤ) :: [3]) =
        [(item_x, (1 : ℤ)), (item_y, (3 : ℤ))] from rfl]
    simp only [List.map_cons, List.map_nil, List.sum_cons, List.sum_nil]
    norm_num [inst0, item_x, item_y]
  · rw [show (32 / 8 : ℝ) = 4 by norm_num, sqrt_four]
  · simp only [rows0, row0x, row0y, List.map_cons, List.map_nil, List.sum_cons,
      List.sum_nil]
    norm_num [inst0]

noncomputable def item_X : Item := { id := "X", a := 50, D := 1000, v := 10 }

noncomputable def item_B : Item := { id := "B", a := 1, D := 0, v := 1 }

noncomputable def inst6 : JRPInstance :=
  { instance_name := "Zero", A := 100, r := 1 / 5, items := [item_X, item_B] }

theorem rank_inst6 : rankItems inst6 = [item_X, item_B] := by
  unfold rankItems inst6
  simp only [List.insertionSort, List.orderedInsert]
  rw [if_pos]
  show item_X.a_over_Dv ≤ item_B.a_over_Dv
  rw [show item_B.a_over_Dv = ⊤ from a_over_Dv_eq_top_iff.mpr (by norm_num [item_B])]
  exact le_top

theorem mult_inst6_B :
    multStep inst6.A item_X.a (item_X.D * item_X.v) item_B =
      .error .overflowError := by
  unfold multStep
  rw [if_neg (by norm_num [inst6, item_X]), if_neg (by norm_num [item_B]),
    if_pos (by norm_num [inst6, item_X])]

theorem eval_inst6 : find_optimal_policy inst6 = .error .overflowError := by
  unfold find_optimal_policy
  rw [rank_inst6]
  simp only [find_core]
  rw [show exceptMap (multStep inst6.A item_X.a (item_X.D * item_X.v)) [item_B] =
      .error .overflowError from by unfold exceptMap; rw [mult_inst6_B]]

noncomputable def instE : JRPInstance :=
  { instance_name := "E", A := 1, r := 1, items := [] }

theorem eval_instE : find_optimal_policy instE = .error .indexError := rfl

noncomputable def item_z1 : Item := { id := "z1", a := 1, D := 1, v := 1 }

noncomputable def item_z2 : Item := { id := "z2", a := 2, D := 1, v := 1 }

noncomputable def instAZ : JRPInstance :=
  { instance_name := "AZ", A := -1, r := 1, items := [item_z1, item_z2] }

theorem rank_instAZ : rankItems instAZ = [item_z1, item_z2] := by
  unfold rankItems instAZ
  simp only [List.insertionSort, List.orderedInsert]
  rw [if_pos]
  show item_z1.a_over_Dv ≤ item_z2.a_over_Dv
  unfold Item.a_over_Dv item_z1 item_z2
  rw [if_pos (by norm_num), if_pos (by norm_num)]
  exact WithTop.coe_le_coe.mpr (by norm_num)

theorem eval_instAZ : find_optimal_policy instAZ = .error .zeroDivisionError := by
  unfold find_optimal_policy
  rw [rank_instAZ]
  simp only [find_core]
  rw [show exceptMap (multStep instAZ.A item_z1.a (item_z1.D * item_z1.v)) [item_z2] =
      .error .zeroDivisionError from by
    unfold exceptMap
    rw [show multStep instAZ.A item_z1.a (item_z1.D * item_z1.v) item_z2 =
        .error .zeroDivisionError from by
      unfold multStep
      rw [if_pos (by norm_num [instAZ, item_z1])]]]

noncomputable def item_w : Item := { id := "w", a := 1, D := 1, v := 1 }

noncomputable def instR0 : JRPInstance :=
  { instance_name := "R0", A := 1, r := 0, items := [item_w] }

theorem eval_instR0 : find_optimal_policy instR0 = .error .zeroDivisionError := by
  unfold find_optimal_policy
  rw [show rankItems instR0 = [item_w] from rfl]
  simp only [find_core, exceptMap]
  rw [if_pos (by norm_num [instR0, item_w])]

noncomputable def item_n : Item := { id := "n", a := 2, D := 1, v := 1 }

noncomputable def instNA : JRPInstance :=
  { instance_name := "NA", A := -10, r := 1, items := [item_n] }

theorem eval_instNA : find_optimal_policy instNA = .error .valueError := by
  unfold find_optimal_policy
  rw [show rankItems instNA = [item_n] from rfl]
  simp only [find_core, exceptMap]
  rw [if_neg (by norm_num [instNA, item_n]), if_pos (by norm_num [instNA, item_n])]

/-! ### Consolidated shape of a successful solve, and error-path helpers -/

theorem find_ok_shape {inst : JRPInstance} {T C : ℝ} {rows : List PolicyRow}
    (h : find_optimal_policy inst = .ok (T, C, rows)) :
    ∃ r0 rest,
      rankItems inst = r0 :: rest ∧
      rows = ((r0 :: rest).zip ((1 : ℤ) ::
          rest.map (mFun inst.A r0.a (r0.D * r0.v)))).map (rowFun inst.r T) ∧
      rows.map PolicyRow.m = 1 :: rest.map (mFun inst.A r0.a (r0.D * r0.v)) ∧
      T = Real.sqrt ((2 * (inst.A + (((r0 :: rest).zip ((1 : ℤ) ::
            rest.map (mFun inst.A r0.a (r0.D * r0.v)))).map
            fun p => p.1.a / (p.2 : ℝ)).sum)) /
          (inst.r * ((((r0 :: rest).zip ((1 : ℤ) ::
            rest.map (mFun inst.A r0.a (r0.D * r0.v)))).map
            fun p => (p.2 : ℝ) * p.1.D * p.1.v).sum))) ∧
      C = inst.A / T + (rows.map PolicyRow.total).sum := by
  unfold find_optimal_policy at h
  obtain ⟨r0, rest, hrank, ms, hm, hden, hq, hT, hT0, hrow, hC⟩ :=
    find_core_ok_elim h
  obtain rfl : ms = rest.map (mFun inst.A r0.a (r0.D * r0.v)) :=
    exceptMap_multStep_ok hm
  obtain ⟨hrows, hti⟩ := exceptMap_rowOf_ok hrow
  refine ⟨r0, rest, hrank, hrows, ?_, hT, hC⟩
  rw [hrows, List.map_map,
    show PolicyRow.m ∘ rowFun inst.r T = Prod.snd from rfl,
    List.map_snd_zip]
  simp [List.length_map]

theorem find_core_mult_error {A r : ℝ} {r0 : Item} {rest : List Item} {e : PyErr}
    (hm : exceptMap (multStep A r0.a (r0.D * r0.v)) rest = .error e) :
    find_core A r (r0 :: rest) = .error e := by
  simp only [find_core, hm]

theorem find_core_den_zero {A r : ℝ} {r0 : Item} (h0 : r0.D * r0.v = 0) :
    find_core A r [r0] = .error .zeroDivisionError := by
  simp only [find_core, exceptMap]
  rw [if_pos]
  simp [h0]

/-! ### The claims -/

/-- C1: on every instance with a non-empty items list on which the solver
returns, the multiplier of the rank-0 (reference) item is fixed at 1 and the
multiplier of every item of rank `i ≥ 1` is
`max(1, round(sqrt(a_over_Dv[i] * D1v1 / (A + a[0]))))` with
`D1v1 = D[0] * v[0]` taken from the reference item. -/
theorem C1_multiplier_formula (inst : JRPInstance) (T C : ℝ)
    (rows : List PolicyRow) (h : find_optimal_policy inst = .ok (T, C, rows)) :
    ∃ r0 rest, rankItems inst = r0 :: rest ∧
      rows.map PolicyRow.m = 1 :: rest.map fun it =>
        max 1 (pyRound (Real.sqrt
          (it.a / (it.D * it.v) * (r0.D * r0.v) / (inst.A + r0.a)))) := by
  obtain ⟨r0, rest, hrank, hrows, hms, hT, hC⟩ := find_ok_shape h
  refine ⟨r0, rest, hrank, ?_⟩
  rw [hms]
  congr 1
  refine List.map_congr_left fun it _ => ?_
  simp only [mFun]
  conv_rhs => rw [mul_div_assoc]

/-- Witness for C1: the two-item instance `inst0` has multipliers `[1, 3]`. -/
theorem C1_multiplier_formula_witness :
    ∃ r0 rest, rankItems inst0 = r0 :: rest ∧
      rows0.map PolicyRow.m = 1 :: rest.map fun it =>
        max 1 (pyRound (Real.sqrt
          (it.a / (it.D * it.v) * (r0.D * r0.v) / (inst0.A + r0.a)))) :=
  C1_multiplier_formula inst0 2 16 rows0 eval_inst0

/-- C2: on every instance with a non-empty items list on which the solver
returns, the base cycle time is the closed form
`sqrt(2 * (A + Σ a[i]/m[i]) / (r * Σ m[i]*D[i]*v[i]))`, both sums over the
ranked items with the multipliers of the multiplier step; no iteration is
performed (the embedding is a single closed-form expression). -/
theorem C2_T_star_formula (inst : JRPInstance) (T C : ℝ)
    (rows : List PolicyRow) (h : find_optimal_policy inst = .ok (T, C, rows)) :
    T = Real.sqrt (2 * (inst.A +
        (((rankItems inst).zip (rows.map PolicyRow.m)).map
          fun p => p.1.a / (p.2 : ℝ)).sum) /
      (inst.r * (((rankItems inst).zip (rows.map PolicyRow.m)).map
          fun p => (p.2 : ℝ) * p.1.D * p.1.v).sum)) := by
  obtain ⟨r0, rest, hrank, hrows, hms, hT, hC⟩ := find_ok_shape h
  rw [hrank, hms]
  exact hT

/-- Witness for C2: on `inst0` the base cycle time 2 equals the closed form. -/
theorem C2_T_star_formula_witness :
    (2 : ℝ) = Real.sqrt (2 * (inst0.A +
        (((rankItems inst0).zip (rows0.map PolicyRow.m)).map
          fun p => p.1.a / (p.2 : ℝ)).sum) /
      (inst0.r * (((rankItems inst0).zip (rows0.map PolicyRow.m)).map
          fun p => (p.2 : ℝ) * p.1.D * p.1.v).sum)) :=
  C2_T_star_formula inst0 2 16 rows0 eval_inst0

/-- C3: on every instance with a non-empty items list on which the solver
returns, the total system cost is `A / T_star` plus the sum of the per-item
total costs as already rounded to 2 digits (sum of rounded values, not the
rounded or exact sum). -/
theorem C3_total_cost_sum_of_rounded (inst : JRPInstance) (T C : ℝ)
    (rows : List PolicyRow) (h : find_optimal_policy inst = .ok (T, C, rows)) :
    C = inst.A / T + (((rankItems inst).zip (rows.map PolicyRow.m)).map
      fun p => round2 (p.1.a / ((p.2 : ℝ) * T) +
        p.1.D * ((p.2 : ℝ) * T) * p.1.v * inst.r / 2)).sum := by
  obtain ⟨r0, rest, hrank, hrows, hms, hT, hC⟩ := find_ok_shape h
  rw [hrank, hms, hC, hrows, List.map_map]
  rfl

/-- Witness for C3: on `inst0` the total cost 16 is `3/2 + (2.5 + 12)`. -/
theorem C3_total_cost_sum_of_rounded_witness :
    (16 : ℝ) = inst0.A / 2 +
      (((rankItems inst0).zip (rows0.map PolicyRow.m)).map
        fun p => round2 (p.1.a / ((p.2 : ℝ) * 2) +
          p.1.D * ((p.2 : ℝ) * 2) * p.1.v * inst0.r / 2)).sum :=
  C3_total_cost_sum_of_rounded inst0 2 16 rows0 eval_inst0

/-- C5: on every instance on which the solver returns, each output record of a
ranked item carries `Ti = m[i] * T_star` rounded to 5 digits, holding cost
`D[i]*Ti*v[i]*r/2` rounded to 2 digits, setup cost `a[i]/Ti` rounded to
2 digits, and a total equal to the unrounded sum of setup and holding cost
rounded to 2 digits, the rounding being applied before packaging. -/
theorem C5_per_item_fields (inst : JRPInstance) (T C : ℝ)
    (rows : List PolicyRow) (h : find_optimal_policy inst = .ok (T, C, rows)) :
    List.Forall₂ (fun (p : Item × ℤ) (row : PolicyRow) =>
        row.Ti = round5 ((p.2 : ℝ) * T) ∧
        row.holding = round2 (p.1.D * ((p.2 : ℝ) * T) * p.1.v * inst.r / 2) ∧
        row.setup = round2 (p.1.a / ((p.2 : ℝ) * T)) ∧
        row.total = round2 (p.1.a / ((p.2 : ℝ) * T) +
          p.1.D * ((p.2 : ℝ) * T) * p.1.v * inst.r / 2))
      ((rankItems inst).zip (rows.map PolicyRow.m)) rows := by
  obtain ⟨r0, rest, hrank, hrows, hms, hT, hC⟩ := find_ok_shape h
  rw [hrank, hms]
  conv_rhs => rw [hrows]
  rw [List.forall₂_map_right_iff, List.forall₂_same]
  intro p hp
  exact ⟨rfl, rfl, rfl, rfl⟩

/-- Witness for C5: the per-item fields of `inst0`'s two output records. -/
theorem C5_per_item_fields_witness :
    List.Forall₂ (fun (p : Item × ℤ) (row : PolicyRow) =>
        row.Ti = round5 ((p.2 : ℝ) * 2) ∧
        row.holding = round2 (p.1.D * ((p.2 : ℝ) * 2) * p.1.v * inst0.r / 2) ∧
        row.setup = round2 (p.1.a / ((p.2 : ℝ) * 2)) ∧
        row.total = round2 (p.1.a / ((p.2 : ℝ) * 2) +
          p.1.D * ((p.2 : ℝ) * 2) * p.1.v * inst0.r / 2))
      ((rankItems inst0).zip (rows0.map PolicyRow.m)) rows0 :=
  C5_per_item_fields inst0 2 16 rows0 eval_inst0

/-- C10: on every instance on which the solver returns, the result list has
one record per input item: its length is the number of input items, the
record at position `i` carries the id of the `i`-th ranked item, and the
multiset of output IDs equals the multiset of input item ids. -/
theorem C10_one_record_per_item (inst : JRPInstance) (T C : ℝ)
    (rows : List PolicyRow) (h : find_optimal_policy inst = .ok (T, C, rows)) :
    rows.length = inst.items.length ∧
    rows.map PolicyRow.ID = (rankItems inst).map Item.id ∧
    (rows.map PolicyRow.ID).Perm (inst.items.map Item.id) := by
  obtain ⟨r0, rest, hrank, hrows, hms, hT, hC⟩ := find_ok_shape h
  have hlen2 : ((1 : ℤ) :: rest.map (mFun inst.A r0.a (r0.D * r0.v))).length =
      (r0 :: rest).length := by
    simp
  have hid : rows.map PolicyRow.ID = (rankItems inst).map Item.id := by
    rw [hrows, List.map_map, hrank,
      show PolicyRow.ID ∘ rowFun inst.r T = Item.id ∘ Prod.fst from rfl,
      ← List.map_map, List.map_fst_zip]
    exact le_of_eq hlen2.symm
  refine ⟨?_, hid, ?_⟩
  · have h1 := congrArg List.length hid
    simp only [List.length_map] at h1
    rw [h1, (rankItems_perm inst).length_eq]
  · rw [hid]
    exact (rankItems_perm inst).map Item.id

/-- Witness for C10: `inst0`'s two records carry ids `x` then `y`. -/
theorem C10_one_record_per_item_witness :
    rows0.length = inst0.items.length ∧
    rows0.map PolicyRow.ID = (rankItems inst0).map Item.id ∧
    (rows0.map PolicyRow.ID).Perm (inst0.items.map Item.id) :=
  C10_one_record_per_item inst0 2 16 rows0 eval_inst0

/-- C8: the solver is deterministic and stateless; the embedding is a pure
function of the instance (the Python body reads only its argument and
locals, no globals or caches), so two invocations on the same instance give
identical output, per-item record sequence and tie order included. -/
theorem C8_deterministic (inst : JRPInstance)
    (out1 out2 : Except PyErr (ℝ × ℝ × List PolicyRow))
    (h1 : find_optimal_policy inst = out1)
    (h2 : find_optimal_policy inst = out2) : out1 = out2 := by
  rw [← h1, ← h2]

/-- Witness for C8: two runs on `inst0` return the same value. -/
theorem C8_deterministic_witness :
    (Except.ok (2, 16, rows0) : Except PyErr (ℝ × ℝ × List PolicyRow)) =
      .ok (2, 16, rows0) :=
  C8_deterministic inst0 (.ok (2, 16, rows0)) (.ok (2, 16, rows0))
    eval_inst0 eval_inst0

/-- C9: solving does not mutate the input: in the state-passing embedding
(the store is the instance; the Python body only reads it and sorts a fresh
copy of the item list) the store after the call equals the store before it,
field by field, and the returned value is the pure solver's value. -/
theorem C9_no_mutation (inst : JRPInstance) :
    (find_optimal_policyS inst).2.instance_name = inst.instance_name ∧
    (find_optimal_policyS inst).2.A = inst.A ∧
    (find_optimal_policyS inst).2.r = inst.r ∧
    (find_optimal_policyS inst).2.items = inst.items ∧
    (find_optimal_policyS inst).2 = inst ∧
    (find_optimal_policyS inst).1 = find_optimal_policy inst :=
  ⟨rfl, rfl, rfl, rfl, rfl, rfl⟩

/-- C4: the solver ranks items in ascending order of `a_over_Dv` with the
`+Infinity` sentinel for a non-positive `D*v`, the sort is stable (a pair of
items with equal keys that appears in order in the input still appears in
that order in the ranking), and any item with `D*v = 0` is ranked after
every item with a finite key. -/
theorem C4_ranking (inst : JRPInstance) :
    (∀ x : Item, 0 < x.D * x.v →
        x.a_over_Dv = ((x.a / (x.D * x.v) : ℝ) : WithTop ℝ)) ∧
    (∀ x : Item, ¬ 0 < x.D * x.v → x.a_over_Dv = ⊤) ∧
    (rankItems inst).Sorted itemLe ∧
    (rankItems inst).Perm inst.items ∧
    (∀ a b : Item, a.a_over_Dv = b.a_over_Dv →
      List.Sublist [a, b] inst.items → List.Sublist [a, b] (rankItems inst)) ∧
    ∀ i j (hi : i < (rankItems inst).length) (hj : j < (rankItems inst).length),
      ((rankItems inst).get ⟨i, hi⟩).D * ((rankItems inst).get ⟨i, hi⟩).v = 0 →
      0 < ((rankItems inst).get ⟨j, hj⟩).D * ((rankItems inst).get ⟨j, hj⟩).v →
      j < i := by
  refine ⟨fun x hx => by rw [Item.a_over_Dv, if_pos hx],
    fun x hx => a_over_Dv_eq_top_iff.mpr hx,
    rankItems_sorted inst, rankItems_perm inst,
    fun a b hk h => rankItems_stable hk h, ?_⟩
  intro i j hi hj hzero hpos
  have htopi : ((rankItems inst).get ⟨i, hi⟩).a_over_Dv = ⊤ :=
    a_over_Dv_eq_top_iff.mpr (by rw [hzero]; exact lt_irrefl 0)
  rcases Nat.lt_trichotomy j i with hlt | heq | hlt
  · exact hlt
  · exfalso
    rw [show (⟨j, hj⟩ : Fin (rankItems inst).length) = ⟨i, hi⟩ from
      Fin.ext heq] at hpos
    rw [hzero] at hpos
    exact lt_irrefl 0 hpos
  · exfalso
    have hle := (rankItems_sorted inst).rel_get_of_lt
      (show (⟨i, hi⟩ : Fin (rankItems inst).length) < ⟨j, hj⟩ from hlt)
    have htopj : ((rankItems inst).get ⟨j, hj⟩).a_over_Dv = ⊤ :=
      top_le_iff.mp (htopi ▸ hle)
    exact absurd hpos (a_over_Dv_eq_top_iff.mp htopj)

/-- C6 counterexample: `inst6` has finite non-negative fields and an item
(`item_B`) with `D*v = 0`, yet the solver crashes: the infinity sentinel
reaches `round(math.sqrt(inf))`, which raises `OverflowError`, so "an item
with `D*v == 0` never causes the solver to crash" is false. -/
theorem C6_counterexample :
    (0 ≤ inst6.A ∧ 0 ≤ inst6.r ∧
      ∀ it ∈ inst6.items, 0 ≤ it.a ∧ 0 ≤ it.D ∧ 0 ≤ it.v) ∧
    (∃ it ∈ inst6.items, it.D * it.v = 0) ∧
    find_optimal_policy inst6 = .error .overflowError := by
  refine ⟨⟨by norm_num [inst6], by norm_num [inst6], ?_⟩,
    ⟨item_B, by simp [inst6], by norm_num [item_B]⟩, eval_inst6⟩
  intro it hit
  simp only [inst6, List.mem_cons, List.not_mem_nil, or_false] at hit
  rcases hit with rfl | rfl
  · norm_num [item_X]
  · norm_num [item_B]

/-- C6 (amended): for finite non-negative inputs an item with `D*v == 0`
always makes the solver raise (the sentinel guards only the ranking key;
the infinite or NaN ratio later crashes `round`, or a zero demand-value sum
crashes the division for `T_star`), and every returned multiplier satisfies
`m[i] ≥ 1`. -/
theorem C6_degenerate_crash_and_m_ge_one (inst : JRPInstance) :
    (0 ≤ inst.A → 0 ≤ inst.r →
      (∀ it ∈ inst.items, 0 ≤ it.a ∧ 0 ≤ it.D ∧ 0 ≤ it.v) →
      (∃ it ∈ inst.items, it.D * it.v = 0) →
      ∃ e, find_optimal_policy inst = .error e) ∧
    ∀ T C rows, find_optimal_policy inst = .ok (T, C, rows) →
      ∀ row ∈ rows, 1 ≤ row.m := by
  constructor
  · rintro hA hr hfields ⟨it, hit, hDv⟩
    have hmem : it ∈ rankItems inst := ((rankItems_perm inst).mem_iff).mpr hit
    unfold find_optimal_policy
    cases hrank : rankItems inst with
    | nil => rw [hrank] at hmem; cases hmem
    | cons r0 rest =>
      rw [hrank] at hmem
      by_cases hex : ∃ x ∈ rest, ¬ 0 < x.D * x.v
      · obtain ⟨x, hx, hxpos⟩ := hex
        obtain ⟨e, he⟩ :=
          @multStep_error_of_not_pos inst.A r0.a (r0.D * r0.v) x hxpos
        obtain ⟨e2, he2⟩ := exceptMap_error_of_mem hx he
        exact ⟨e2, find_core_mult_error he2⟩
      · push_neg at hex
        have hit0 : it = r0 := by
          rcases List.mem_cons.mp hmem with h | h
          · exact h
          · exact absurd (hex it h) (by rw [hDv]; exact fun h2 => lt_irrefl 0 h2)
        subst hit0
        cases rest with
        | nil => exact ⟨_, find_core_den_zero hDv⟩
        | cons x xs =>
          exfalso
          have hs := rankItems_sorted inst
          rw [hrank] at hs
          have h1 : itemLe it x :=
            (List.sorted_cons.mp hs).1 x (List.mem_cons_self x xs)
          have h2 : it.a_over_Dv = ⊤ :=
            a_over_Dv_eq_top_iff.mpr (by rw [hDv]; exact fun h2 => lt_irrefl 0 h2)
          have h3 : x.a_over_Dv = ⊤ := top_le_iff.mp (h2 ▸ h1)
          exact absurd (hex x (List.mem_cons_self x xs))
            (fun hc => (a_over_Dv_eq_top_iff.mp h3) hc)
  · intro T C rows h row hrow
    obtain ⟨r0, rest, hrank, hrows, hms, hT, hC⟩ := find_ok_shape h
    rw [hrows] at hrow
    obtain ⟨p, hp, rfl⟩ := List.mem_map.mp hrow
    show 1 ≤ p.2
    rcases List.mem_cons.mp (List.of_mem_zip hp).2 with h1 | h1
    · exact le_of_eq h1.symm
    · obtain ⟨it2, _, h2⟩ := List.mem_map.mp h1
      exact h2 ▸ (le_max_left 1 _ :
        (1 : ℤ) ≤ mFun inst.A r0.a (r0.D * r0.v) it2)

/-- C7 counterexample: the malformed instance with an empty items list makes
the solver raise `IndexError` (from `sorted_items[0]`), so "the solver does
not raise an error on malformed instances" is false. -/
theorem C7_counterexample :
    instE.items = [] ∧ find_optimal_policy instE = .error .indexError :=
  ⟨rfl, eval_instE⟩

/-- A single-item instance with a non-positive major cost `A = -1` on which
the solver nevertheless returns normally with finite values. -/
noncomputable def item_p : Item := { id := "p", a := 3, D := 1, v := 1 }

noncomputable def instOkA : JRPInstance :=
  { instance_name := "OkA", A := -1, r := 1, items := [item_p] }

noncomputable def rowOkA : PolicyRow :=
  { ID := "p", m := 1, Ti := 2, setup := 3 / 2, holding := 1, total := 5 / 2 }

theorem rowOf_instOkA : rowOf instOkA.r 2 (item_p, (1 : ℤ)) = .ok rowOkA := by
  unfold rowOf rowFun rowOkA
  rw [if_neg (by norm_num)]
  simp only [instOkA, item_p]
  norm_num
  refine ⟨round5_eq_of_mul_intCast (by norm_num : (2:ℝ) * 100000 = ((200000:ℤ):ℝ)),
    round2_eq_of_mul_intCast (by norm_num : (3/2:ℝ) * 100 = ((150:ℤ):ℝ)),
    round2_eq_of_mul_intCast (by norm_num : (1:ℝ) * 100 = ((100:ℤ):ℝ)),
    round2_eq_of_mul_intCast (by norm_num : (5/2:ℝ) * 100 = ((250:ℤ):ℝ))⟩

theorem eval_instOkA : find_optimal_policy instOkA = .ok (2, 2, [rowOkA]) := by
  unfold find_optimal_policy
  rw [show rankItems instOkA = [item_p] from rfl]
  refine find_core_build rfl ?_ ?_ (by norm_num : (1:ℝ) ≠ 0)
    (by norm_num : (0:ℝ) ≤ 4 / 1) ?_ ?_ (by norm_num) ?_
  · rw [show ([item_p]).zip [(1 : ℤ)] = [(item_p, (1 : ℤ))] from rfl]
    simp only [List.map_cons, List.map_nil, List.sum_cons, List.sum_nil]
    norm_num [instOkA, item_p]
  · rw [show ([item_p]).zip [(1 : ℤ)] = [(item_p, (1 : ℤ))] from rfl]
    simp only [List.map_cons, List.map_nil, List.sum_cons, List.sum_nil]
    norm_num [instOkA, item_p]
  · rw [show (4 / 1 : ℝ) = 4 by norm_num, sqrt_four]
  · rw [show ([item_p]).zip [(1 : ℤ)] = [(item_p, (1 : ℤ))] from rfl]
    simp only [exceptMap]
    rw [rowOf_instOkA]
  · simp only [List.map_cons, List.map_nil, List.sum_cons, List.sum_nil]
    norm_num [instOkA, rowOkA]

theorem multStep_zero_denom {A a0 D1v1 : ℝ} (it : Item) (h : A + a0 = 0) :
    multStep A a0 D1v1 it = .error .zeroDivisionError := by
  unfold multStep
  rw [if_pos h]

/-- Error intro at the `num / den` division: when the multiplier loop
completes but the holding-cost denominator is zero, the solver raises
`ZeroDivisionError` there. -/
theorem find_core_den_error {A r : ℝ} {r0 : Item} {rest : List Item}
    {ms : List ℤ}
    (hm : exceptMap (multStep A r0.a (r0.D * r0.v)) rest = .ok ms)
    (hden : r * ((((r0 :: rest).zip ((1 : ℤ) :: ms)).map
        fun p => (p.2 : ℝ) * p.1.D * p.1.v).sum) = 0) :
    find_core A r (r0 :: rest) = .error .zeroDivisionError := by
  simp only [find_core, hm]
  rw [if_pos hden]

theorem rankItems_ne_nil {inst : JRPInstance} (h : inst.items ≠ []) :
    rankItems inst ≠ [] := by
  intro h2
  apply h
  have := (rankItems_perm inst).length_eq
  rw [h2] at this
  exact List.eq_nil_of_length_eq_zero this.symm

/-- C7 (amended): a malformed instance either raises a Python exception or
returns normally with finite values; exceptions, not silent NaN/Infinity,
are what the malformed categories produce when they fail.  Universally: an
empty items list always raises `IndexError`; `A + a[0] == 0` (reference
item) with at least a second ranked item always raises `ZeroDivisionError`
in the multiplier loop; if every item has `D*v == 0` (hence every
`m[i]*D[i]*v[i] == 0`) the solver always raises, and in the single-item
case the raise is the `ZeroDivisionError` at `num / den`; `r == 0` with a
non-empty items list always raises.  A non-positive `A` alone need not
raise: it can yield `ValueError` from a negative radicand (`instNA`) but
can also return normally with finite values (`instOkA`, `A = -1`). -/
theorem C7_malformed_behavior :
    (∀ inst : JRPInstance, inst.items = [] →
      find_optimal_policy inst = .error .indexError) ∧
    (∀ (inst : JRPInstance) (r0 x : Item) (rest : List Item),
      rankItems inst = r0 :: x :: rest → inst.A + r0.a = 0 →
      find_optimal_policy inst = .error .zeroDivisionError) ∧
    (∀ inst : JRPInstance, inst.items ≠ [] →
      (∀ it ∈ inst.items, it.D * it.v = 0) →
      ∃ e, find_optimal_policy inst = .error e) ∧
    (∀ (inst : JRPInstance) (it : Item), inst.items = [it] →
      it.D * it.v = 0 →
      find_optimal_policy inst = .error .zeroDivisionError) ∧
    (∀ inst : JRPInstance, inst.items ≠ [] → inst.r = 0 →
      ∃ e, find_optimal_policy inst = .error e) ∧
    find_optimal_policy instNA = .error .valueError ∧
    find_optimal_policy instOkA = .ok (2, 2, [rowOkA]) := by
  refine ⟨?_, ?_, ?_, ?_, ?_, eval_instNA, eval_instOkA⟩
  · intro inst h
    unfold find_optimal_policy rankItems
    rw [h]
    rfl
  · intro inst r0 x rest hrank h0
    unfold find_optimal_policy
    rw [hrank]
    apply find_core_mult_error
    unfold exceptMap
    rw [multStep_zero_denom x h0]
  · intro inst hne hz
    cases hrank : rankItems inst with
    | nil => exact absurd hrank (rankItems_ne_nil hne)
    | cons r0 rest =>
      cases rest with
      | nil =>
        refine ⟨.zeroDivisionError, ?_⟩
        unfold find_optimal_policy
        rw [hrank]
        refine find_core_den_zero (hz r0 ?_)
        exact (rankItems_perm inst).mem_iff.mp
          (by rw [hrank]; exact List.mem_cons_self r0 [])
      | cons x xs =>
        have hx : x ∈ inst.items := (rankItems_perm inst).mem_iff.mp
          (by rw [hrank]; exact List.mem_cons_of_mem r0 (List.mem_cons_self x xs))
        have hxz : ¬ 0 < x.D * x.v := by
          rw [hz x hx]
          exact lt_irrefl 0
        obtain ⟨e, he⟩ :=
          @multStep_error_of_not_pos inst.A r0.a (r0.D * r0.v) x hxz
        obtain ⟨e2, he2⟩ := exceptMap_error_of_mem (List.mem_cons_self x xs) he
        refine ⟨e2, ?_⟩
        unfold find_optimal_policy
        rw [hrank]
        exact find_core_mult_error he2
  · intro inst it h hDv
    unfold find_optimal_policy rankItems
    rw [h, show List.insertionSort itemLe [it] = [it] from rfl]
    exact find_core_den_zero hDv
  · intro inst hne hr0
    cases hrank : rankItems inst with
    | nil => exact absurd hrank (rankItems_ne_nil hne)
    | cons r0 rest =>
      cases hm : exceptMap (multStep inst.A r0.a (r0.D * r0.v)) rest with
      | error e =>
        refine ⟨e, ?_⟩
        unfold find_optimal_policy
        rw [hrank]
        exact find_core_mult_error hm
      | ok ms =>
        refine ⟨.zeroDivisionError, ?_⟩
        unfold find_optimal_policy
        rw [hrank]
        exact find_core_den_error hm (by rw [hr0, zero_mul])
